import Mathlib

/-!
Shallow embedding of the voice_models inference core: the sequence
normalizer (`TCN.reformat` in src/azrt2021/tcn.py), the forward-pass shape
validation (`TCN.forward`), the convolution/pooling layer stack
(`TCN.__init__`), the score interpreter and the orchestrator frame
conditions (`predict_voice_from_audio` in src/api.py).

Feature matrices carry rational entries as total functions from index
pairs, with shape data alongside; tensors likewise over index triples.
Logits and probabilities are real numbers and softmax uses `Real.exp`.
-/

namespace VoiceModels

/-- `SAFE_SEQ_LENGTH = 16384` from `TCN.reformat` (tcn.py line 138). -/
def SAFE_SEQ_LENGTH : Nat := 16384

/-- A 2-D feature matrix: `r` rows, `c` columns, rational entries.
Out-of-range indices read arbitrary values; all statements range over
in-shape indices. -/
structure Mat where
  r : Nat
  c : Nat
  entry : Nat → Nat → ℚ

/-- A 3-axis tensor (batch, channel, time). -/
structure Tensor3 where
  b : Nat
  c : Nat
  t : Nat
  entry : Nat → Nat → Nat → ℚ

/-- `Xs[idx].permute(1, 0)` (tcn.py line 155). -/
def Mat.transposeM (m : Mat) : Mat :=
  ⟨m.c, m.r, fun i j => m.entry j i⟩

/-- The pad-or-truncate step of `TCN.reformat` (tcn.py lines 168-177):
shorter sequences get zero columns appended up to `SAFE_SEQ_LENGTH`,
longer ones keep only their first `SAFE_SEQ_LENGTH` columns, an exact
fit is left unchanged. -/
def padTruncate (m : Mat) : Mat :=
  if m.c < SAFE_SEQ_LENGTH then
    ⟨m.r, SAFE_SEQ_LENGTH, fun i j => if j < m.c then m.entry i j else 0⟩
  else if SAFE_SEQ_LENGTH < m.c then
    ⟨m.r, SAFE_SEQ_LENGTH, fun i j => if j < SAFE_SEQ_LENGTH then m.entry i j else 0⟩
  else
    m

/-- `Xs[idx].view(1, shape[0], shape[1])` (tcn.py line 184). -/
def toTensor3 (m : Mat) : Tensor3 :=
  ⟨1, m.r, m.c, fun b i j => if b = 0 then m.entry i j else 0⟩

/-- A shape-validation error of `TCN.reformat` (tcn.py lines 156-160):
the raised ValueError names only the observed 2-D shape — unlike the
error of `TCN.forward`, it does not carry the offending index. -/
structure ReformatErr where
  shape : Nat × Nat
  deriving DecidableEq, Repr

/-- The body of the loop in `TCN.reformat` for the element at position
`idx` (tcn.py lines 140-192): orient to channel-major (permute only when
axis 0 is not 13, and only if axis 1 is 13; otherwise raise a
shape-validation error naming the observed shape), then pad or truncate
the time axis to `SAFE_SEQ_LENGTH`, then reshape to (1, 13, 16384).
Conversion to float32 tensor is the identity in this rational model;
the raised error does not use `idx`, matching the source ValueError. -/
def reformatStep (idx : Nat) (m : Mat) : Except ReformatErr Tensor3 :=
  if m.r ≠ 13 then
    if m.c = 13 then
      Except.ok (toTensor3 (padTruncate m.transposeM))
    else
      Except.error ⟨(m.r, m.c)⟩
  else
    Except.ok (toTensor3 (padTruncate m))

/-- An element of the collection while `TCN.reformat` runs: either still
the original feature matrix (`Sum.inl`) or already replaced in place by
its normalized tensor (`Sum.inr`). -/
def RItem : Type := Mat ⊕ Tensor3

/-- The in-place loop of `TCN.reformat` (tcn.py lines 140-192): elements
are replaced one by one; a raised error aborts the loop, leaving the
current and all later elements untouched. Returns the final state of the
collection together with, if an error was raised, the loop position at
which the raise aborted the loop (the `enumerate` counter, an
observation about where mutation stopped — not part of the raised
error's content) and the raised error itself. -/
def reformatAux (idx : Nat) : List Mat → List RItem × Option (Nat × ReformatErr)
  | [] => ([], none)
  | m :: rest =>
    match reformatStep idx m with
    | Except.ok t =>
      let p := reformatAux (idx + 1) rest
      (Sum.inr t :: p.1, p.2)
    | Except.error e =>
      (Sum.inl m :: rest.map Sum.inl, some (idx, e))

/-- `TCN.reformat` on a collection of feature matrices. -/
def reformat (xs : List Mat) : List RItem × Option (Nat × ReformatErr) :=
  reformatAux 0 xs

/-- A layer descriptor of the `nn.Sequential` stacks in `TCN.__init__`
(tcn.py lines 20-68). -/
inductive Layer
  | conv1d (inC outC kernel stride padding : Nat)
  | elu
  | maxPool1d (kernel stride padding : Nat)
  | linear (inF outF : Nat) (bias : Bool)
  deriving DecidableEq, Repr

/-- The `self.tcn` stack of `TCN.__init__` (tcn.py lines 20-64), in
order. -/
def tcnLayers : List Layer :=
  [Layer.conv1d 13 32 1 1 0,
   Layer.conv1d 32 32 3 1 1,
   Layer.conv1d 32 32 3 1 1,
   Layer.elu,
   Layer.maxPool1d 4 4 0,
   Layer.conv1d 32 64 3 1 1,
   Layer.conv1d 64 64 3 1 1,
   Layer.elu,
   Layer.maxPool1d 4 4 0,
   Layer.conv1d 64 128 3 1 1,
   Layer.conv1d 128 128 3 1 1,
   Layer.elu,
   Layer.maxPool1d 4 4 0,
   Layer.conv1d 128 128 3 1 1,
   Layer.conv1d 128 128 3 1 1,
   Layer.elu,
   Layer.maxPool1d 4 4 0,
   Layer.conv1d 128 256 3 1 1,
   Layer.conv1d 256 256 3 1 1,
   Layer.elu,
   Layer.maxPool1d 4 4 0,
   Layer.conv1d 256 256 3 1 1,
   Layer.conv1d 256 256 3 1 1,
   Layer.elu,
   Layer.maxPool1d 4 4 0,
   Layer.conv1d 256 512 3 1 1,
   Layer.conv1d 512 512 3 1 1,
   Layer.elu,
   Layer.maxPool1d 4 4 0,
   Layer.conv1d 512 512 3 1 1,
   Layer.conv1d 512 512 3 1 1,
   Layer.elu]

/-- The `self.mlp` stack of `TCN.__init__` (tcn.py lines 66-68). -/
def mlpLayers : List Layer :=
  [Layer.linear 512 2 false]

/-- Whether a layer descriptor is a max-pooling stage. -/
def Layer.isPool : Layer → Bool
  | Layer.maxPool1d _ _ _ => true
  | _ => false

/-- Time-axis length after one layer, by the standard 1-D
convolution/pooling output-size formula. -/
def Layer.outLen (l : Layer) (len : Nat) : Nat :=
  match l with
  | Layer.conv1d _ _ k s p => (len + 2 * p - k) / s + 1
  | Layer.elu => len
  | Layer.maxPool1d k s p => (len + 2 * p - k) / s + 1
  | Layer.linear _ _ _ => len

/-- Time-axis length after a stack of layers. -/
def stackOutLen (ls : List Layer) (len : Nat) : Nat :=
  ls.foldl (fun acc l => l.outLen acc) len

/-- A shape-validation error of `TCN.forward`: the offending index and
the observed 3-axis shape (tcn.py lines 80-85). -/
structure ForwardErr where
  idx : Nat
  shape : Nat × Nat × Nat
  deriving DecidableEq, Repr

/-- The validation loop of `TCN.forward` (tcn.py lines 76-103),
parameterized by the numeric computation `net` a validated tensor would
be passed to (the `self.tcn`/mean/`self.mlp` pipeline producing a logit
pair): each input's time axis is checked against `SAFE_SEQ_LENGTH`
before `net` is applied to it; a failed check raises with the offending
index and shape; on full success the per-sample outputs are stacked in
order. -/
def forwardTCN (net : Tensor3 → ℝ × ℝ) : Nat → List Tensor3 → Except ForwardErr (List (ℝ × ℝ))
  | _, [] => Except.ok []
  | idx, X :: rest =>
    if X.t ≠ SAFE_SEQ_LENGTH then
      Except.error ⟨idx, (X.b, X.c, X.t)⟩
    else
      match forwardTCN net (idx + 1) rest with
      | Except.ok out => Except.ok (net X :: out)
      | Except.error e => Except.error e

/-- `torch.softmax` on a logit pair (api.py line 283): the two
probabilities `exp sᵢ / (exp s₀ + exp s₁)`. -/
noncomputable def softmaxPair (s0 s1 : ℝ) : ℝ × ℝ :=
  (Real.exp s0 / (Real.exp s0 + Real.exp s1),
   Real.exp s1 / (Real.exp s0 + Real.exp s1))

/-- The interpreted result of `predict_voice_from_audio`
(api.py lines 284-291): label and confidence. -/
structure Interp where
  result : String
  confidence : ℝ

/-- The score interpreter of `predict_voice_from_audio` (api.py lines
283-291): softmax the logit pair, read probability index 0 as the
dementia probability and index 1 as the normal probability (the flipped
convention noted in the source), then threshold strictly at 0.5. -/
noncomputable def interpretScores (s0 s1 : ℝ) : Interp :=
  let dementia_prob := (softmaxPair s0 s1).1
  let normal_prob := (softmaxPair s0 s1).2
  if dementia_prob > 1 / 2 then
    ⟨"dementia_detected", dementia_prob⟩
  else
    ⟨"normal", normal_prob⟩

/-- A classifier parameter: a value and its `requires_grad` flag. -/
structure Param where
  value : ℝ
  requiresGrad : Bool

/-- The parameter-freezing loop of `load_model` (api.py lines 220-222):
`param.requires_grad = False` for every parameter. -/
def disableGrads (ps : List Param) : List Param :=
  ps.map fun p => ⟨p.value, false⟩

/-- The inference step of `predict_voice_from_audio` (api.py lines
280-291), with state passing made explicit: the network computation
`net` sees the parameter list and the gradient-tracking flag in effect;
the call runs `net` inside `torch.no_grad()` (flag `false`), interprets
the resulting logit pair, and returns the parameters as they stand after
the call. The code never assigns to a parameter, so the returned list is
the input list. -/
noncomputable def predictVoiceInfer (ps : List Param)
    (net : Bool → List Param → List Tensor3 → ℝ × ℝ)
    (xs : List Tensor3) : Interp × List Param × Bool :=
  let gradEnabled := false
  let scores := net gradEnabled ps xs
  (interpretScores scores.1 scores.2, ps, gradEnabled)

/-- Concrete short feature matrix (shape (13, 2)) used as a witness input. -/
def wMat3 : Mat :=
  ⟨13, 2, fun i j => (i : ℚ) + j⟩

/-- Concrete over-long feature matrix (shape (13, 16385)) used as a witness input. -/
def wMat4 : Mat :=
  ⟨13, 16385, fun i j => (i : ℚ) * 20000 + j⟩

/-- Concrete well-formed feature matrix (shape (13, 1)) used as a witness input. -/
def wGoodMat : Mat :=
  ⟨13, 1, fun _ _ => 0⟩

/-- Concrete malformed feature matrix (shape (2, 3), neither axis 13) used
as a witness input. -/
def wBadMat : Mat :=
  ⟨2, 3, fun _ _ => 0⟩

/-- Concrete tensor with time axis 5 ≠ 16384 used as a witness input. -/
def wBadTensor : Tensor3 :=
  ⟨1, 13, 5, fun _ _ _ => 0⟩

/-- Concrete asymmetric square (13, 13) feature matrix used as a
counterexample input. -/
def cexSquare : Mat :=
  ⟨13, 13, fun i j => if i = 0 ∧ j = 1 then 1 else 0⟩

/-- Concrete feature content with 2 time steps used as a witness input. -/
def wContent : Nat → Nat → ℚ :=
  fun i j => (i : ℚ) + 2 * j

lemma padTruncate_r (m : Mat) : (padTruncate m).r = m.r := by
  unfold padTruncate
  split
  · rfl
  split
  · rfl
  · rfl

lemma padTruncate_c (m : Mat) : (padTruncate m).c = SAFE_SEQ_LENGTH := by
  unfold padTruncate
  split
  · rfl
  split
  · rfl
  · omega

lemma reformatStep_ok_shape (idx : Nat) (m : Mat) (t : Tensor3)
    (h : reformatStep idx m = Except.ok t) :
    t.b = 1 ∧ t.c = 13 ∧ t.t = SAFE_SEQ_LENGTH := by
  unfold reformatStep at h
  by_cases hr : m.r ≠ 13
  · rw [if_pos hr] at h
    by_cases hc : m.c = 13
    · rw [if_pos hc] at h
      cases h
      refine ⟨rfl, ?_, ?_⟩
      · show (padTruncate m.transposeM).r = 13
        rw [padTruncate_r]
        exact hc
      · show (padTruncate m.transposeM).c = SAFE_SEQ_LENGTH
        exact padTruncate_c _
    · rw [if_neg hc] at h
      cases h
  · rw [if_neg hr] at h
    cases h
    refine ⟨rfl, ?_, ?_⟩
    · show (padTruncate m).r = 13
      rw [padTruncate_r]
      omega
    · exact padTruncate_c _

lemma reformatStep_ok_of_orient (idx : Nat) (m : Mat)
    (h : m.r = 13 ∨ m.c = 13) : ∃ t, reformatStep idx m = Except.ok t := by
  unfold reformatStep
  by_cases hr : m.r ≠ 13
  · rw [if_pos hr]
    have hc : m.c = 13 := by tauto
    rw [if_pos hc]
    exact ⟨_, rfl⟩
  · rw [if_neg hr]
    exact ⟨_, rfl⟩

lemma reformatStep_error_eq (idx : Nat) (m : Mat) (e : ReformatErr)
    (h : reformatStep idx m = Except.error e) :
    e = ⟨(m.r, m.c)⟩ ∧ m.r ≠ 13 ∧ m.c ≠ 13 := by
  unfold reformatStep at h
  by_cases hr : m.r ≠ 13
  · rw [if_pos hr] at h
    by_cases hc : m.c = 13
    · rw [if_pos hc] at h
      cases h
    · rw [if_neg hc] at h
      cases h
      exact ⟨rfl, hr, hc⟩
  · rw [if_neg hr] at h
    cases h

/-- C1: the score interpreter softmaxes the logit pair into two
probabilities summing to 1, reads index 0 as the dementia probability
and index 1 as the normal probability, labels "dementia_detected" with
confidence the dementia probability exactly when it exceeds 1/2, and
otherwise — including a tie at exactly 1/2, as on equal logits — labels
"normal" with confidence the normal probability. -/
theorem C1_score_interpreter (s0 s1 : ℝ) :
    (softmaxPair s0 s1).1 + (softmaxPair s0 s1).2 = 1 ∧
    0 < (softmaxPair s0 s1).1 ∧ 0 < (softmaxPair s0 s1).2 ∧
    interpretScores s0 s1 =
      (if 1 / 2 < (softmaxPair s0 s1).1 then
        ⟨"dementia_detected", (softmaxPair s0 s1).1⟩
      else
        ⟨"normal", (softmaxPair s0 s1).2⟩) ∧
    (softmaxPair s0 s0).1 = 1 / 2 ∧
    (interpretScores s0 s0).result = "normal" ∧
    (interpretScores s0 s0).confidence = 1 / 2 := by
  have hpos : (0 : ℝ) < Real.exp s0 + Real.exp s1 := by positivity
  have hpos0 : (0 : ℝ) < Real.exp s0 + Real.exp s0 := by positivity
  have htie : (softmaxPair s0 s0).1 = 1 / 2 := by
    show Real.exp s0 / (Real.exp s0 + Real.exp s0) = 1 / 2
    rw [div_eq_div_iff (ne_of_gt hpos0) (by norm_num)]
    ring
  have htie2 : (softmaxPair s0 s0).2 = 1 / 2 := by
    show Real.exp s0 / (Real.exp s0 + Real.exp s0) = 1 / 2
    rw [div_eq_div_iff (ne_of_gt hpos0) (by norm_num)]
    ring
  refine ⟨?_, ?_, ?_, rfl, htie, ?_, ?_⟩
  · show Real.exp s0 / _ + Real.exp s1 / _ = 1
    rw [div_add_div_same, div_self (ne_of_gt hpos)]
  · exact div_pos (Real.exp_pos s0) hpos
  · exact div_pos (Real.exp_pos s1) hpos
  · show (interpretScores s0 s0).result = "normal"
    unfold interpretScores
    rw [htie]
    norm_num
  · show (interpretScores s0 s0).confidence = 1 / 2
    unfold interpretScores
    rw [htie]
    norm_num [htie2]

/-- C2: the classifier stack contains exactly 7 max-pooling stages, each
with kernel 4 and stride 4 (dividing the time axis by 4, taking the safe
length 16384 down to exactly 1 through the stack), the normalizer's
`SAFE_SEQ_LENGTH` equals 4^7 = 16384 and hence is at least the pooling
demand, and every tensor the normalizer writes back on success has shape
exactly (1, 13, 16384). -/
theorem C2_safe_length_matches_pooling :
    (tcnLayers.filter Layer.isPool).length = 7 ∧
    (∀ l ∈ tcnLayers, l.isPool = true → l = Layer.maxPool1d 4 4 0) ∧
    SAFE_SEQ_LENGTH = 4 ^ 7 ∧
    4 ^ 7 ≤ SAFE_SEQ_LENGTH ∧
    stackOutLen tcnLayers SAFE_SEQ_LENGTH = 1 ∧
    ∀ xs t, Sum.inr t ∈ (reformat xs).1 →
      t.b = 1 ∧ t.c = 13 ∧ t.t = SAFE_SEQ_LENGTH := by
  refine ⟨by decide, by decide, by decide, by decide, by decide, ?_⟩
  have main : ∀ xs idx t, Sum.inr t ∈ (reformatAux idx xs).1 →
      t.b = 1 ∧ t.c = 13 ∧ t.t = SAFE_SEQ_LENGTH := by
    intro xs
    induction xs with
    | nil =>
      intro idx t h
      cases h
    | cons m rest ih =>
      intro idx t h
      unfold reformatAux at h
      cases hstep : reformatStep idx m with
      | ok t0 =>
        rw [hstep] at h
        rcases List.mem_cons.mp h with h0 | h1
        · have : t0 = t := Sum.inr.inj h0.symm
          subst this
          exact reformatStep_ok_shape idx m t0 hstep
        · exact ih (idx + 1) t h1
      | error e =>
        rw [hstep] at h
        rcases List.mem_cons.mp h with h0 | h1
        · cases h0
        · rcases List.mem_map.mp h1 with ⟨m', _, hm'⟩
          cases hm'
  intro xs t h
  exact main xs 0 t h

/-- C3: a well-oriented (13-row) feature matrix whose time length is at
most 16384 is normalized successfully; the output keeps the original
values at every time position below the original length and holds zero
at every time position from the original length up to 16384. -/
theorem C3_pad_preserves_and_zeroes (m : Mat) (idx : Nat)
    (hr : m.r = 13) (hc : m.c ≤ SAFE_SEQ_LENGTH) :
    reformatStep idx m = Except.ok (toTensor3 (padTruncate m)) ∧
    (∀ i j, j < m.c → (toTensor3 (padTruncate m)).entry 0 i j = m.entry i j) ∧
    (∀ i j, m.c ≤ j → j < SAFE_SEQ_LENGTH →
      (toTensor3 (padTruncate m)).entry 0 i j = 0) := by
  have hstep : reformatStep idx m = Except.ok (toTensor3 (padTruncate m)) := by
    unfold reformatStep
    rw [if_neg (by omega)]
  refine ⟨hstep, ?_, ?_⟩
  · intro i j hj
    show (padTruncate m).entry i j = m.entry i j
    unfold padTruncate
    rcases lt_trichotomy m.c SAFE_SEQ_LENGTH with h | h | h
    · rw [if_pos h]
      exact if_pos hj
    · rw [if_neg (by omega), if_neg (by omega)]
    · omega
  · intro i j hj hjS
    show (padTruncate m).entry i j = 0
    unfold padTruncate
    rcases lt_or_eq_of_le hc with h | h
    · rw [if_pos h]
      exact if_neg (by omega)
    · omega

/-- C4: a well-oriented (13-row) feature matrix whose time length
exceeds 16384 is normalized successfully to time length exactly 16384,
and every kept time position holds exactly the corresponding value of
the input's first 16384 columns. -/
theorem C4_truncate_keeps_prefix (m : Mat) (idx : Nat)
    (hr : m.r = 13) (hc : SAFE_SEQ_LENGTH < m.c) :
    reformatStep idx m = Except.ok (toTensor3 (padTruncate m)) ∧
    (padTruncate m).c = SAFE_SEQ_LENGTH ∧
    ∀ i j, j < SAFE_SEQ_LENGTH →
      (toTensor3 (padTruncate m)).entry 0 i j = m.entry i j := by
  refine ⟨?_, padTruncate_c m, ?_⟩
  · unfold reformatStep
    rw [if_neg (by omega)]
  · intro i j hj
    show (padTruncate m).entry i j = m.entry i j
    unfold padTruncate
    rw [if_neg (by omega), if_pos hc]
    exact if_pos hj

/-- C3 witness: the concrete (13, 2) matrix `wMat3` satisfies the
hypotheses of `C3_pad_preserves_and_zeroes` at index 0. -/
theorem C3_pad_witness :
    reformatStep 0 wMat3 = Except.ok (toTensor3 (padTruncate wMat3)) ∧
    (∀ i j, j < wMat3.c → (toTensor3 (padTruncate wMat3)).entry 0 i j = wMat3.entry i j) ∧
    (∀ i j, wMat3.c ≤ j → j < SAFE_SEQ_LENGTH →
      (toTensor3 (padTruncate wMat3)).entry 0 i j = 0) :=
  C3_pad_preserves_and_zeroes wMat3 0 rfl (by decide)

/-- C4 witness: the concrete (13, 16385) matrix `wMat4` satisfies the
hypotheses of `C4_truncate_keeps_prefix` at index 0. -/
theorem C4_truncate_witness :
    reformatStep 0 wMat4 = Except.ok (toTensor3 (padTruncate wMat4)) ∧
    (padTruncate wMat4).c = SAFE_SEQ_LENGTH ∧
    ∀ i j, j < SAFE_SEQ_LENGTH →
      (toTensor3 (padTruncate wMat4)).entry 0 i j = wMat4.entry i j :=
  C4_truncate_keeps_prefix wMat4 0 rfl (by decide)

lemma forwardTCN_error_at (net : Tensor3 → ℝ × ℝ) :
    ∀ (xs : List Tensor3) (k idx : Nat) (X : Tensor3),
      xs.get? k = some X → X.t ≠ SAFE_SEQ_LENGTH →
      (∀ j X', j < k → xs.get? j = some X' → X'.t = SAFE_SEQ_LENGTH) →
      forwardTCN net idx xs = Except.error ⟨idx + k, (X.b, X.c, X.t)⟩ := by
  intro xs
  induction xs with
  | nil =>
    intro k idx X hget _ _
    cases hget
  | cons Y rest ih =>
    intro k idx X hget hbad hpre
    cases k with
    | zero =>
      have hYX : Y = X := by
        have : some Y = some X := hget
        exact Option.some.inj this
      subst hYX
      unfold forwardTCN
      rw [if_pos hbad, Nat.add_zero]
    | succ k' =>
      have hYok : Y.t = SAFE_SEQ_LENGTH := by
        exact hpre 0 Y (Nat.succ_pos k') rfl
      have hrest : forwardTCN net (idx + 1) rest =
          Except.error ⟨(idx + 1) + k', (X.b, X.c, X.t)⟩ := by
        refine ih k' (idx + 1) X hget hbad ?_
        intro j X' hj hgj
        exact hpre (j + 1) X' (Nat.succ_lt_succ hj) hgj
      unfold forwardTCN
      rw [if_neg (by omega), hrest]
      have : (idx + 1) + k' = idx + (k' + 1) := by omega
      rw [this]

/-- C5: if some tensor in the classifier's input collection has time
axis different from 16384, the forward pass fails with an error carrying
the first such offending index and that tensor's observed shape, and it
does so for every numeric network computation — the offending tensor is
never handed to the convolution/pooling pipeline. -/
theorem C5_forward_validates_length (xs : List Tensor3) (k : Nat) (X : Tensor3)
    (hget : xs.get? k = some X) (hbad : X.t ≠ SAFE_SEQ_LENGTH)
    (hpre : ∀ j X', j < k → xs.get? j = some X' → X'.t = SAFE_SEQ_LENGTH) :
    ∀ net : Tensor3 → ℝ × ℝ,
      forwardTCN net 0 xs = Except.error ⟨k, (X.b, X.c, X.t)⟩ := by
  intro net
  have h := forwardTCN_error_at net xs k 0 X hget hbad hpre
  rwa [Nat.zero_add] at h

/-- C5 witness: the singleton collection holding the concrete tensor
`wBadTensor` of shape (1, 13, 5) satisfies the hypotheses of
`C5_forward_validates_length` at index 0. -/
theorem C5_forward_witness :
    forwardTCN (fun _ => ((0 : ℝ), (0 : ℝ))) 0 [wBadTensor] =
      Except.error ⟨0, (wBadTensor.b, wBadTensor.c, wBadTensor.t)⟩ :=
  C5_forward_validates_length [wBadTensor] 0 wBadTensor rfl (by decide)
    (fun j X' hj _ => absurd hj (Nat.not_lt_zero j)) (fun _ => ((0 : ℝ), (0 : ℝ)))

lemma reformatAux_error_first_bad :
    ∀ (xs : List Mat) (k idx : Nat) (m : Mat),
      xs.get? k = some m → m.r ≠ 13 → m.c ≠ 13 →
      (∀ j m', j < k → xs.get? j = some m' → (m'.r = 13 ∨ m'.c = 13)) →
      (reformatAux idx xs).2 = some (idx + k, ⟨(m.r, m.c)⟩) ∧
      (reformatAux idx xs).1.get? k = some (Sum.inl m) := by
  intro xs
  induction xs with
  | nil =>
    intro k idx m hget _ _ _
    cases hget
  | cons y rest ih =>
    intro k idx m hget hr hc hpre
    cases k with
    | zero =>
      have hym : y = m := Option.some.inj hget
      subst hym
      have hstep : reformatStep idx y = Except.error ⟨(y.r, y.c)⟩ := by
        unfold reformatStep
        rw [if_pos hr, if_neg hc]
      unfold reformatAux
      rw [hstep]
      exact ⟨rfl, rfl⟩
    | succ k' =>
      have hyok : y.r = 13 ∨ y.c = 13 := hpre 0 y (Nat.succ_pos k') rfl
      obtain ⟨t, hstep⟩ := reformatStep_ok_of_orient idx y hyok
      have hrest := ih k' (idx + 1) m hget hr hc
        (fun j m' hj hgj => hpre (j + 1) m' (Nat.succ_lt_succ hj) hgj)
      unfold reformatAux
      rw [hstep]
      have harith : (idx + 1) + k' = idx + (k' + 1) := by omega
      refine ⟨?_, hrest.2⟩
      show (reformatAux (idx + 1) rest).2 = some (idx + (k' + 1), ⟨(m.r, m.c)⟩)
      rw [hrest.1, harith]

/-- C6 counterexample: the raised shape-validation error does not
identify the offending index within the collection — the same malformed
(2, 3) matrix placed at index 0 of one collection and at index 1 of
another makes the normalizer raise the very same error value, carrying
only the observed shape (2, 3), exactly as the source ValueError message
names only the shape. -/
theorem C6_no_index_counterexample :
    ((reformat [wBadMat]).2.map Prod.snd =
      (reformat [wGoodMat, wBadMat]).2.map Prod.snd) ∧
    (reformat [wBadMat]).2.map Prod.fst = some 0 ∧
    (reformat [wGoodMat, wBadMat]).2.map Prod.fst = some 1 ∧
    (reformat [wBadMat]).2.map Prod.snd = some ⟨(2, 3)⟩ := by
  refine ⟨rfl, rfl, rfl, rfl⟩

/-- C6 (amended): a 2-D feature matrix in the normalizer's input whose
axes are both different from 13 (all earlier matrices being
well-oriented) makes the normalizer raise a shape-validation error
identifying the observed shape — but not the offending index, which the
raised error does not carry — the loop stops at that matrix's position,
and that matrix is left in the collection unprocessed: it is never
padded, truncated or reshaped. -/
theorem C6_shape_validation_error (xs : List Mat) (k : Nat) (m : Mat)
    (hget : xs.get? k = some m) (hr : m.r ≠ 13) (hc : m.c ≠ 13)
    (hpre : ∀ j m', j < k → xs.get? j = some m' → (m'.r = 13 ∨ m'.c = 13)) :
    (reformat xs).2 = some (k, ⟨(m.r, m.c)⟩) ∧
    (reformat xs).1.get? k = some (Sum.inl m) ∧
    ∀ idx, reformatStep idx m = Except.error ⟨(m.r, m.c)⟩ := by
  have h := reformatAux_error_first_bad xs k 0 m hget hr hc hpre
  rw [Nat.zero_add] at h
  refine ⟨h.1, h.2, ?_⟩
  intro idx
  unfold reformatStep
  rw [if_pos hr, if_neg hc]

/-- C6 witness: the concrete collection `[wGoodMat, wBadMat]`, with the
malformed (2, 3) matrix at index 1, satisfies the hypotheses of
`C6_shape_validation_error`. -/
theorem C6_shape_validation_witness :
    (reformat [wGoodMat, wBadMat]).2 = some (1, ⟨(wBadMat.r, wBadMat.c)⟩) ∧
    (reformat [wGoodMat, wBadMat]).1.get? 1 = some (Sum.inl wBadMat) ∧
    ∀ idx, reformatStep idx wBadMat = Except.error ⟨(wBadMat.r, wBadMat.c)⟩ :=
  C6_shape_validation_error [wGoodMat, wBadMat] 1 wBadMat rfl (by decide) (by decide)
    (by
      intro j m' hj hgj
      have hj0 : j = 0 := by omega
      subst hj0
      have : wGoodMat = m' := Option.some.inj hgj
      subst this
      exact Or.inl rfl)

/-- C7 counterexample: the asymmetric square matrix `cexSquare` of shape
(13, 13), presented as-is and presented transposed, is normalized to two
different tensors — at batch 0, channel 0, time 1 the first holds 1 and
the second holds 0 — so orientation correction fails for square content,
refuting the claim for time length exactly 13. -/
theorem C7_counterexample :
    ¬ (reformat [cexSquare]).1 = (reformat [cexSquare.transposeM]).1 := by
  intro h
  have h2 := congrArg
    (fun l : List RItem =>
      match l with
      | Sum.inr t :: _ => t.entry 0 0 1
      | _ => (0 : ℚ)) h
  exact absurd h2 (by decide)

/-- C7 (amended): for every feature content with time length T ≠ 13,
normalizing it presented as shape (13, T) and normalizing the same
content presented transposed as shape (T, 13) produce identical
(1, 13, 16384) output tensors; for T = 13 the normalizer cannot detect
the transposed presentation (see the counterexample). -/
theorem C7_orientation_correction (T : Nat) (f : Nat → Nat → ℚ)
    (hT : T ≠ 13) (idx : Nat) :
    reformatStep idx (⟨T, 13, fun i j => f j i⟩ : Mat) =
      reformatStep idx (⟨13, T, f⟩ : Mat) := by
  show (if T ≠ 13 then _ else _) = _
  rw [if_pos hT]
  show (if (13 : Nat) = 13 then _ else _) = _
  rw [if_pos rfl]
  show Except.ok (toTensor3 (padTruncate (Mat.transposeM ⟨T, 13, fun i j => f j i⟩))) = _
  show Except.ok (toTensor3 (padTruncate (⟨13, T, fun i j => f i j⟩ : Mat))) = _
  show _ = (if (13 : Nat) ≠ 13 then _ else Except.ok (toTensor3 (padTruncate (⟨13, T, f⟩ : Mat))))
  rw [if_neg (by omega)]

/-- C7 witness: the concrete content `wContent` with time length 2
satisfies the hypothesis of `C7_orientation_correction` at index 0. -/
theorem C7_orientation_witness :
    reformatStep 0 (⟨2, 13, fun i j => wContent j i⟩ : Mat) =
      reformatStep 0 (⟨13, 2, wContent⟩ : Mat) :=
  C7_orientation_correction 2 wContent (by decide) 0

/-- C8: the inference step is a pure read of the classifier: it returns
the parameter list exactly as given (no parameter is mutated by
prediction), the gradient-tracking flag in effect during the forward
computation is `false`, the returned result is the interpretation of the
logit pair the network computes under that flag, and the model-loading
step leaves every parameter with `requires_grad` disabled. -/
theorem C8_inference_frame (ps : List Param)
    (net : Bool → List Param → List Tensor3 → ℝ × ℝ) (xs : List Tensor3) :
    (predictVoiceInfer ps net xs).2.1 = ps ∧
    (predictVoiceInfer ps net xs).2.2 = false ∧
    (predictVoiceInfer ps net xs).1 =
      interpretScores (net false ps xs).1 (net false ps xs).2 ∧
    ∀ p ∈ disableGrads ps, p.requiresGrad = false := by
  refine ⟨rfl, rfl, rfl, ?_⟩
  intro p hp
  rcases List.mem_map.mp hp with ⟨q, _, hq⟩
  cases hq
  rfl

/-- C9: the normalizer permutes a 2-D matrix only when its first axis is
not 13 (and then only when its second axis is 13); a square (13, 13)
matrix is treated as already channel-major and never transposed, so the
output at channel i, time j always reads the raw entry (i, j) — for
content whose logical orientation was (time, 13), time and channel are
silently swapped. -/
theorem C9_square_matrix_not_permuted :
    (∀ (idx : Nat) (m : Mat), m.r = 13 →
      reformatStep idx m = Except.ok (toTensor3 (padTruncate m))) ∧
    (∀ (idx : Nat) (m : Mat), m.r ≠ 13 → m.c = 13 →
      reformatStep idx m = Except.ok (toTensor3 (padTruncate m.transposeM))) ∧
    (∀ sq : Mat, sq.r = 13 → sq.c = 13 → ∀ i j, i < 13 → j < 13 →
      (toTensor3 (padTruncate sq)).entry 0 i j = sq.entry i j) := by
  refine ⟨?_, ?_, ?_⟩
  · intro idx m hr
    unfold reformatStep
    rw [if_neg (by omega)]
  · intro idx m hr hc
    unfold reformatStep
    rw [if_pos hr, if_pos hc]
  · intro sq hr hc i j _ hj
    show (padTruncate sq).entry i j = sq.entry i j
    unfold padTruncate
    rw [if_pos (by rw [hc]; decide : sq.c < SAFE_SEQ_LENGTH)]
    exact if_pos (by omega)

lemma reformatAux_length : ∀ (xs : List Mat) (idx : Nat),
    (reformatAux idx xs).1.length = xs.length := by
  intro xs
  induction xs with
  | nil =>
    intro idx
    rfl
  | cons m rest ih =>
    intro idx
    unfold reformatAux
    cases hstep : reformatStep idx m with
    | ok t =>
      show ((Sum.inr t : RItem) :: (reformatAux (idx + 1) rest).1).length = rest.length + 1
      rw [List.length_cons, ih (idx + 1)]
    | error e =>
      show ((Sum.inl m : RItem) :: rest.map Sum.inl).length = rest.length + 1
      rw [List.length_cons, List.length_map]

lemma reformatAux_error_spec :
    ∀ (xs : List Mat) (idx n : Nat) (e : ReformatErr),
      (reformatAux idx xs).2 = some (n, e) →
      idx ≤ n ∧ n - idx < xs.length ∧
      (∀ j, j < n - idx → ∃ m t, xs.get? j = some m ∧
        (reformatAux idx xs).1.get? j = some (Sum.inr t) ∧
        reformatStep (idx + j) m = Except.ok t) ∧
      (∀ j, n - idx ≤ j →
        (reformatAux idx xs).1.get? j = (xs.get? j).map Sum.inl) := by
  intro xs
  induction xs with
  | nil =>
    intro idx n e h
    cases h
  | cons m rest ih =>
    intro idx n e h
    unfold reformatAux at h ⊢
    cases hstep : reformatStep idx m with
    | error e0 =>
      rw [hstep] at h
      have hpair : (idx, e0) = (n, e) := Option.some.inj h
      have hn : n = idx := (congrArg Prod.fst hpair).symm
      refine ⟨by omega, by simp only [List.length_cons]; omega, ?_, ?_⟩
      · intro j hj
        exact absurd hj (by omega)
      · intro j _
        show (List.map Sum.inl (m :: rest)).get? j = ((m :: rest).get? j).map Sum.inl
        exact List.get?_map Sum.inl (m :: rest) j
    | ok t =>
      rw [hstep] at h
      have hrest := ih (idx + 1) n e h
      obtain ⟨h1, h2, h3, h4⟩ := hrest
      refine ⟨by omega, by simp only [List.length_cons]; omega, ?_, ?_⟩
      · intro j hj
        cases j with
        | zero =>
          exact ⟨m, t, rfl, rfl, by rw [Nat.add_zero]; exact hstep⟩
        | succ j' =>
          obtain ⟨m', t', hg, ho, hs⟩ := h3 j' (by omega)
          refine ⟨m', t', hg, ho, ?_⟩
          have : idx + (j' + 1) = (idx + 1) + j' := by omega
          rw [this]
          exact hs
      · intro j hj
        cases j with
        | zero =>
          omega
        | succ j' =>
          exact h4 j' (by omega)

/-- C10: the normalizer mutates its input collection in place and is not
atomic on error: when its loop stops with a raised error at position k,
the collection holds, below k, the normalized (1, 13, 16384) tensor of
each original matrix (each the successful result of the per-element
step), and, from k on, the original matrices untouched. -/
theorem C10_inplace_partial_on_error (xs : List Mat) (k : Nat) (e : ReformatErr)
    (herr : (reformat xs).2 = some (k, e)) :
    k < xs.length ∧
    (reformat xs).1.length = xs.length ∧
    (∀ j, j < k → ∃ m t, xs.get? j = some m ∧
      (reformat xs).1.get? j = some (Sum.inr t) ∧
      reformatStep j m = Except.ok t) ∧
    (∀ j, k ≤ j → (reformat xs).1.get? j = (xs.get? j).map Sum.inl) := by
  have h := reformatAux_error_spec xs 0 k e herr
  simp only [Nat.sub_zero, Nat.zero_add] at h
  exact ⟨h.2.1, reformatAux_length xs 0, h.2.2.1, h.2.2.2⟩

/-- C10 witness: the concrete collection `[wGoodMat, wBadMat]` satisfies
the hypothesis of `C10_inplace_partial_on_error` with the error raised
at index 1: index 0 is already normalized, index 1 still holds the
original malformed matrix. -/
theorem C10_inplace_witness :
    (1 : Nat) < [wGoodMat, wBadMat].length ∧
    (reformat [wGoodMat, wBadMat]).1.length = [wGoodMat, wBadMat].length ∧
    (∀ j, j < 1 → ∃ m t, [wGoodMat, wBadMat].get? j = some m ∧
      (reformat [wGoodMat, wBadMat]).1.get? j = some (Sum.inr t) ∧
      reformatStep j m = Except.ok t) ∧
    (∀ j, 1 ≤ j →
      (reformat [wGoodMat, wBadMat]).1.get? j =
        ([wGoodMat, wBadMat].get? j).map Sum.inl) :=
  C10_inplace_partial_on_error [wGoodMat, wBadMat] 1 ⟨(2, 3)⟩ rfl

end VoiceModels
